import Mathlib

/-!
Verification of the SwiftXR 3D editor core against its specification.

The development shallowly embeds the three core source modules:

* utils/modelLoader.js — file validation and model normalization
  (getModelBounds, centerModel, scaleModelToSize, prepareModel, validateFile);
* hooks/useThreeScene.js — the orbit camera controller
  (rotateCameraBy, zoomCameraBy and the camera-control state);
* components/SwiftXR3DEditor.js — the reducer-based editor state machine
  (editorReducer, handleMouseDown, handleHotspotPlacement).

Numbers that are IEEE-754 doubles in the source are embedded as exact
rational numbers: every finite double denotes a rational, and none of the
verified properties depends on rounding of intermediate double operations.
The constant Math.PI is embedded as the exact rational value of the double
closest to the circle constant.
-/

namespace SwiftXR

/-- A 3D vector with rational coordinates, embedding THREE.Vector3. -/
structure Vec3 where
  x : ℚ
  y : ℚ
  z : ℚ
deriving DecidableEq, Repr

/--
Embedding of the loaded model subtree as seen by the normalization code.
The operations in modelLoader.js mutate only the root transform of the
gltf scene (model.position, model.scale; the root rotation is the identity
and is never touched), while THREE.Box3.setFromObject folds every world
space vertex of the subtree into an axis-aligned box.  The subtree below
the root is therefore embedded as the list of its vertices expressed in
the root local frame: the world position of a vertex q is
position + scale * q componentwise.
-/
structure Model where
  position : Vec3
  scale : Vec3
  geometry : List Vec3
deriving DecidableEq, Repr

/-- Minimum of a list of rationals (0 on the empty list, which the bounds
code never hits in the claims considered here). -/
def listMin : List ℚ → ℚ
  | [] => 0
  | [a] => a
  | a :: b :: t => min a (listMin (b :: t))

/-- Maximum of a list of rationals. -/
def listMax : List ℚ → ℚ
  | [] => 0
  | [a] => a
  | a :: b :: t => max a (listMax (b :: t))

/-- The x coordinates of the geometry in the root local frame. -/
def geomX (m : Model) : List ℚ := m.geometry.map Vec3.x

/-- The y coordinates of the geometry in the root local frame. -/
def geomY (m : Model) : List ℚ := m.geometry.map Vec3.y

/-- The z coordinates of the geometry in the root local frame. -/
def geomZ (m : Model) : List ℚ := m.geometry.map Vec3.z

/-- World-space x coordinates of every vertex of the subtree. -/
def worldX (m : Model) : List ℚ := (geomX m).map (fun q => m.position.x + m.scale.x * q)

/-- World-space y coordinates of every vertex of the subtree. -/
def worldY (m : Model) : List ℚ := (geomY m).map (fun q => m.position.y + m.scale.y * q)

/-- World-space z coordinates of every vertex of the subtree. -/
def worldZ (m : Model) : List ℚ := (geomZ m).map (fun q => m.position.z + m.scale.z * q)

/-- Center of the world-space bounding box, as computed by
getModelBounds via THREE.Box3.getCenter: (min + max) / 2 per axis. -/
def boundsCenter (m : Model) : Vec3 :=
  ⟨(listMin (worldX m) + listMax (worldX m)) / 2,
   (listMin (worldY m) + listMax (worldY m)) / 2,
   (listMin (worldZ m) + listMax (worldZ m)) / 2⟩

/-- Size of the world-space bounding box, as computed by getModelBounds
via THREE.Box3.getSize: max - min per axis. -/
def boundsSize (m : Model) : Vec3 :=
  ⟨listMax (worldX m) - listMin (worldX m),
   listMax (worldY m) - listMin (worldY m),
   listMax (worldZ m) - listMin (worldZ m)⟩

/-- Largest dimension of the bounding box: Math.max(size.x, size.y, size.z)
in getModelBounds. -/
def maxDimension (m : Model) : ℚ :=
  max (max (boundsSize m).x (boundsSize m).y) (boundsSize m).z

/-- centerModel from modelLoader.js: model.position.sub(bounds.center). -/
def centerModel (m : Model) : Model :=
  { m with position := ⟨m.position.x - (boundsCenter m).x,
                        m.position.y - (boundsCenter m).y,
                        m.position.z - (boundsCenter m).z⟩ }

/-- scaleModelToSize from modelLoader.js: when bounds.maxDimension > 0,
multiply model.scale by targetSize / bounds.maxDimension componentwise. -/
def scaleModelToSize (m : Model) (targetSize : ℚ) : Model :=
  if 0 < maxDimension m then
    { m with scale := ⟨(targetSize / maxDimension m) * m.scale.x,
                       (targetSize / maxDimension m) * m.scale.y,
                       (targetSize / maxDimension m) * m.scale.z⟩ }
  else m

/-- prepareModel from modelLoader.js, restricted to its geometric effect:
fixModelIssues and enableShadows mutate only materials, vertex normals and
shadow flags, none of which enter the geometric state embedded here.  The
center and scale options gate centerModel and scaleModelToSize exactly as
in the source. -/
def prepareModel (m : Model) (center scale : Bool) (targetSize : ℚ) : Model :=
  let m1 := if center then centerModel m else m
  if scale then scaleModelToSize m1 targetSize else m1

theorem min_affine (a b u v : ℚ) (hb : 0 ≤ b) :
    min (a + b * u) (a + b * v) = a + b * min u v := by
  rcases le_total u v with h | h
  · rw [min_eq_left h, min_eq_left]
    have := mul_le_mul_of_nonneg_left h hb
    linarith
  · rw [min_eq_right h, min_eq_right]
    have := mul_le_mul_of_nonneg_left h hb
    linarith

theorem max_affine (a b u v : ℚ) (hb : 0 ≤ b) :
    max (a + b * u) (a + b * v) = a + b * max u v := by
  rcases le_total u v with h | h
  · rw [max_eq_right h, max_eq_right]
    have := mul_le_mul_of_nonneg_left h hb
    linarith
  · rw [max_eq_left h, max_eq_left]
    have := mul_le_mul_of_nonneg_left h hb
    linarith

theorem mul_max_nonneg (k u v : ℚ) (hk : 0 ≤ k) :
    max (k * u) (k * v) = k * max u v := by
  have := max_affine 0 k u v hk
  simpa using this

theorem listMin_map_affine (a b : ℚ) (hb : 0 ≤ b) :
    ∀ l : List ℚ, l ≠ [] → listMin (l.map (fun t => a + b * t)) = a + b * listMin l := by
  intro l
  induction l with
  | nil => intro h; exact absurd rfl h
  | cons x xs ih =>
    intro _
    cases xs with
    | nil => simp [listMin]
    | cons y t =>
      have hxs := ih (List.cons_ne_nil y t)
      simp only [List.map_cons] at hxs ⊢
      rw [listMin, listMin, hxs, min_affine _ _ _ _ hb]

theorem listMax_map_affine (a b : ℚ) (hb : 0 ≤ b) :
    ∀ l : List ℚ, l ≠ [] → listMax (l.map (fun t => a + b * t)) = a + b * listMax l := by
  intro l
  induction l with
  | nil => intro h; exact absurd rfl h
  | cons x xs ih =>
    intro _
    cases xs with
    | nil => simp [listMax]
    | cons y t =>
      have hxs := ih (List.cons_ne_nil y t)
      simp only [List.map_cons] at hxs ⊢
      rw [listMax, listMax, hxs, max_affine _ _ _ _ hb]

theorem worldX_centerModel (m : Model) :
    worldX (centerModel m) =
      (worldX m).map (fun t => (-(boundsCenter m).x) + 1 * t) := by
  simp only [worldX, geomX, centerModel, List.map_map]
  apply List.map_congr_left
  intro q _
  simp only [Function.comp_apply]
  ring

theorem worldY_centerModel (m : Model) :
    worldY (centerModel m) =
      (worldY m).map (fun t => (-(boundsCenter m).y) + 1 * t) := by
  simp only [worldY, geomY, centerModel, List.map_map]
  apply List.map_congr_left
  intro q _
  simp only [Function.comp_apply]
  ring

theorem worldZ_centerModel (m : Model) :
    worldZ (centerModel m) =
      (worldZ m).map (fun t => (-(boundsCenter m).z) + 1 * t) := by
  simp only [worldZ, geomZ, centerModel, List.map_map]
  apply List.map_congr_left
  intro q _
  simp only [Function.comp_apply]
  ring

theorem worldX_ne_nil (m : Model) (hg : m.geometry ≠ []) : worldX m ≠ [] := by
  simp [worldX, geomX, hg]

theorem worldY_ne_nil (m : Model) (hg : m.geometry ≠ []) : worldY m ≠ [] := by
  simp [worldY, geomY, hg]

theorem worldZ_ne_nil (m : Model) (hg : m.geometry ≠ []) : worldZ m ≠ [] := by
  simp [worldZ, geomZ, hg]

theorem boundsCenter_centerModel (m : Model) (hg : m.geometry ≠ []) :
    boundsCenter (centerModel m) = ⟨0, 0, 0⟩ := by
  have hx := worldX_centerModel m
  have hy := worldY_centerModel m
  have hz := worldZ_centerModel m
  have h01 : (0 : ℚ) ≤ 1 := by norm_num
  simp only [boundsCenter, hx, hy, hz,
    listMin_map_affine _ _ h01 _ (worldX_ne_nil m hg),
    listMax_map_affine _ _ h01 _ (worldX_ne_nil m hg),
    listMin_map_affine _ _ h01 _ (worldY_ne_nil m hg),
    listMax_map_affine _ _ h01 _ (worldY_ne_nil m hg),
    listMin_map_affine _ _ h01 _ (worldZ_ne_nil m hg),
    listMax_map_affine _ _ h01 _ (worldZ_ne_nil m hg)]
  simp only [Vec3.mk.injEq]
  refine ⟨by ring, by ring, by ring⟩

theorem boundsSize_centerModel (m : Model) (hg : m.geometry ≠ []) :
    boundsSize (centerModel m) = boundsSize m := by
  have hx := worldX_centerModel m
  have hy := worldY_centerModel m
  have hz := worldZ_centerModel m
  have h01 : (0 : ℚ) ≤ 1 := by norm_num
  simp only [boundsSize, hx, hy, hz,
    listMin_map_affine _ _ h01 _ (worldX_ne_nil m hg),
    listMax_map_affine _ _ h01 _ (worldX_ne_nil m hg),
    listMin_map_affine _ _ h01 _ (worldY_ne_nil m hg),
    listMax_map_affine _ _ h01 _ (worldY_ne_nil m hg),
    listMin_map_affine _ _ h01 _ (worldZ_ne_nil m hg),
    listMax_map_affine _ _ h01 _ (worldZ_ne_nil m hg)]
  simp only [Vec3.mk.injEq]
  refine ⟨by ring, by ring, by ring⟩

theorem maxDimension_centerModel (m : Model) (hg : m.geometry ≠ []) :
    maxDimension (centerModel m) = maxDimension m := by
  simp [maxDimension, boundsSize_centerModel m hg]

theorem worldX_scaleModelToSize (m : Model) (S : ℚ) (hM : 0 < maxDimension m) :
    worldX (scaleModelToSize m S) =
      (worldX m).map (fun t => (1 - S / maxDimension m) * m.position.x + (S / maxDimension m) * t) := by
  simp only [scaleModelToSize, if_pos hM, worldX, geomX, List.map_map]
  apply List.map_congr_left
  intro q _
  simp only [Function.comp_apply]
  ring

theorem worldY_scaleModelToSize (m : Model) (S : ℚ) (hM : 0 < maxDimension m) :
    worldY (scaleModelToSize m S) =
      (worldY m).map (fun t => (1 - S / maxDimension m) * m.position.y + (S / maxDimension m) * t) := by
  simp only [scaleModelToSize, if_pos hM, worldY, geomY, List.map_map]
  apply List.map_congr_left
  intro q _
  simp only [Function.comp_apply]
  ring

theorem worldZ_scaleModelToSize (m : Model) (S : ℚ) (hM : 0 < maxDimension m) :
    worldZ (scaleModelToSize m S) =
      (worldZ m).map (fun t => (1 - S / maxDimension m) * m.position.z + (S / maxDimension m) * t) := by
  simp only [scaleModelToSize, if_pos hM, worldZ, geomZ, List.map_map]
  apply List.map_congr_left
  intro q _
  simp only [Function.comp_apply]
  ring

theorem boundsCenter_scaleModelToSize (m : Model) (S : ℚ)
    (hg : m.geometry ≠ []) (hM : 0 < maxDimension m) (hk : 0 ≤ S / maxDimension m) :
    boundsCenter (scaleModelToSize m S) =
      ⟨(1 - S / maxDimension m) * m.position.x + (S / maxDimension m) * (boundsCenter m).x,
       (1 - S / maxDimension m) * m.position.y + (S / maxDimension m) * (boundsCenter m).y,
       (1 - S / maxDimension m) * m.position.z + (S / maxDimension m) * (boundsCenter m).z⟩ := by
  simp only [boundsCenter,
    worldX_scaleModelToSize m S hM, worldY_scaleModelToSize m S hM,
    worldZ_scaleModelToSize m S hM,
    listMin_map_affine _ _ hk _ (worldX_ne_nil m hg),
    listMax_map_affine _ _ hk _ (worldX_ne_nil m hg),
    listMin_map_affine _ _ hk _ (worldY_ne_nil m hg),
    listMax_map_affine _ _ hk _ (worldY_ne_nil m hg),
    listMin_map_affine _ _ hk _ (worldZ_ne_nil m hg),
    listMax_map_affine _ _ hk _ (worldZ_ne_nil m hg)]
  simp only [Vec3.mk.injEq]
  refine ⟨by ring, by ring, by ring⟩

theorem maxDimension_scaleModelToSize (m : Model) (S : ℚ)
    (hg : m.geometry ≠ []) (hM : 0 < maxDimension m) (hk : 0 ≤ S / maxDimension m) :
    maxDimension (scaleModelToSize m S) = (S / maxDimension m) * maxDimension m := by
  have hx : (boundsSize (scaleModelToSize m S)).x = (S / maxDimension m) * (boundsSize m).x := by
    simp only [boundsSize, worldX_scaleModelToSize m S hM,
      listMin_map_affine _ _ hk _ (worldX_ne_nil m hg),
      listMax_map_affine _ _ hk _ (worldX_ne_nil m hg)]
    ring
  have hy : (boundsSize (scaleModelToSize m S)).y = (S / maxDimension m) * (boundsSize m).y := by
    simp only [boundsSize, worldY_scaleModelToSize m S hM,
      listMin_map_affine _ _ hk _ (worldY_ne_nil m hg),
      listMax_map_affine _ _ hk _ (worldY_ne_nil m hg)]
    ring
  have hz : (boundsSize (scaleModelToSize m S)).z = (S / maxDimension m) * (boundsSize m).z := by
    simp only [boundsSize, worldZ_scaleModelToSize m S hM,
      listMin_map_affine _ _ hk _ (worldZ_ne_nil m hg),
      listMax_map_affine _ _ hk _ (worldZ_ne_nil m hg)]
    ring
  rw [maxDimension, hx, hy, hz, mul_max_nonneg _ _ _ hk, mul_max_nonneg _ _ _ hk]
  rfl

/-- A concrete two-vertex model: root at the origin, unit scale, a segment
from (1,0,0) to (3,0,0).  Its bounds center is (2,0,0) and its largest
dimension is 2. -/
def exampleModel : Model := ⟨⟨0, 0, 0⟩, ⟨1, 1, 1⟩, [⟨1, 0, 0⟩, ⟨3, 0, 0⟩]⟩

/-- C1: the claim is false on the code.  Normalizing exampleModel with
target size 4 (prepareModel with center and scale enabled, exactly as
handleFileUpload calls it) leaves the recomputed bounding volume centered
at (2,0,0), not at the origin: scaleModelToSize multiplies the root scale,
which scales the subtree about the root position rather than about the
world origin, and the centering step has just moved the root position away
from the bounds center. -/
theorem c1_counterexample :
    ¬ (boundsCenter (prepareModel exampleModel true true 4) = ⟨0, 0, 0⟩ ∧
       maxDimension (prepareModel exampleModel true true 4) = 4) := by
  have hc : boundsCenter (prepareModel exampleModel true true 4) = ⟨2, 0, 0⟩ := by
    norm_num [prepareModel, scaleModelToSize, centerModel, maxDimension, boundsSize,
      boundsCenter, worldX, worldY, worldZ, geomX, geomY, geomZ, exampleModel,
      listMin, listMax, min_def, max_def]
  intro h
  rw [hc] at h
  have h2 := h.1
  norm_num [Vec3.mk.injEq] at h2

/-- C1 (amended): for every model subtree with at least one vertex, a
positive largest dimension M, and a positive target size S, normalization
does make the largest dimension of the recomputed bounding volume exactly
S, but the recomputed bounds center is (1 - S/M) * (position - center)
componentwise, which is the world origin only when S = M or when the root
position already coincided with the bounds center. -/
theorem c1_amended (m : Model) (S : ℚ) (hg : m.geometry ≠ [])
    (hM : 0 < maxDimension m) (hS : 0 < S) :
    maxDimension (prepareModel m true true S) = S ∧
    boundsCenter (prepareModel m true true S) =
      ⟨(1 - S / maxDimension m) * (m.position.x - (boundsCenter m).x),
       (1 - S / maxDimension m) * (m.position.y - (boundsCenter m).y),
       (1 - S / maxDimension m) * (m.position.z - (boundsCenter m).z)⟩ := by
  have hprep : prepareModel m true true S = scaleModelToSize (centerModel m) S := by
    simp [prepareModel]
  have hgc : (centerModel m).geometry ≠ [] := hg
  have hMc : maxDimension (centerModel m) = maxDimension m :=
    maxDimension_centerModel m hg
  have hM2 : 0 < maxDimension (centerModel m) := by rw [hMc]; exact hM
  have hk : 0 ≤ S / maxDimension (centerModel m) := div_nonneg hS.le hM2.le
  constructor
  · rw [hprep, maxDimension_scaleModelToSize _ S hgc hM2 hk,
      div_mul_cancel₀ _ hM2.ne']
  · rw [hprep, boundsCenter_scaleModelToSize _ S hgc hM2 hk,
      boundsCenter_centerModel m hg, hMc]
    simp only [centerModel, Vec3.mk.injEq]
    refine ⟨by ring, by ring, by ring⟩

/-- Witness for c1_amended at the concrete exampleModel with target size 4. -/
theorem c1_amended_witness :
    maxDimension (prepareModel exampleModel true true 4) = 4 ∧
    boundsCenter (prepareModel exampleModel true true 4) =
      ⟨(1 - 4 / maxDimension exampleModel) * (exampleModel.position.x - (boundsCenter exampleModel).x),
       (1 - 4 / maxDimension exampleModel) * (exampleModel.position.y - (boundsCenter exampleModel).y),
       (1 - 4 / maxDimension exampleModel) * (exampleModel.position.z - (boundsCenter exampleModel).z)⟩ :=
  c1_amended exampleModel 4 (by decide)
    (by norm_num [maxDimension, boundsSize, worldX, worldY, worldZ, geomX, geomY,
      geomZ, exampleModel, listMin, listMax, min_def, max_def])
    (by norm_num)

/-- The IEEE-754 double Math.PI as an exact rational: 884279719003555 / 2^48. -/
def mathPI : ℚ := 884279719003555 / 281474976710656

/-- The camera-control state of useThreeScene.js: spherical coordinates
(distance, rotationX = elevation, rotationY = azimuth) around the target
point.  Doubles are embedded as rationals; decimal literals of the source
are embedded as the exact decimal value, which no verified property
distinguishes from the underlying double. -/
structure CameraControls where
  distance : ℚ
  rotationX : ℚ
  rotationY : ℚ
  targetX : ℚ
  targetY : ℚ
  targetZ : ℚ
deriving DecidableEq, Repr

/-- The initial value passed to useState in useThreeScene.js. -/
def initialCameraControls : CameraControls :=
  ⟨8, 0.3, 0.5, 0, 0, 0⟩

/-- rotateCameraBy from useThreeScene.js: rotationY grows by deltaX * 0.01,
rotationX is clamped into the interval from -PI/2 + 0.1 to PI/2 - 0.1. -/
def rotateCameraBy (c : CameraControls) (deltaX deltaY : ℚ) : CameraControls :=
  { c with
    rotationY := c.rotationY + deltaX * 0.01,
    rotationX := max (-(mathPI / 2) + 0.1) (min (mathPI / 2 - 0.1) (c.rotationX + deltaY * 0.01)) }

/-- zoomCameraBy from useThreeScene.js: distance is multiplied by
(1 + delta * 0.1) and clamped into the interval from 2 to 50. -/
def zoomCameraBy (c : CameraControls) (delta : ℚ) : CameraControls :=
  { c with distance := max 2 (min 50 (c.distance * (1 + delta * 0.1))) }

/-- One pointer-driven camera mutation: a rotate or a zoom call. -/
inductive CamAction where
  | rotate (deltaX deltaY : ℚ)
  | zoom (delta : ℚ)
deriving DecidableEq, Repr

/-- Dispatch of a single camera action to the controller. -/
def applyCamAction (c : CameraControls) : CamAction → CameraControls
  | .rotate dx dy => rotateCameraBy c dx dy
  | .zoom d => zoomCameraBy c d

/-- The camera state after a finite sequence of rotate and zoom calls,
starting from the initial controls. -/
def runCamera (acts : List CamAction) : CameraControls :=
  acts.foldl applyCamAction initialCameraControls

/-- The clamp invariant of the camera controller: distance within the
configured range 2 to 50, elevation within -PI/2 + 0.1 to PI/2 - 0.1. -/
def camInvariant (c : CameraControls) : Prop :=
  2 ≤ c.distance ∧ c.distance ≤ 50 ∧
  -(mathPI / 2) + 0.1 ≤ c.rotationX ∧ c.rotationX ≤ mathPI / 2 - 0.1

theorem camInvariant_step (c : CameraControls) (a : CamAction)
    (h : camInvariant c) : camInvariant (applyCamAction c a) := by
  obtain ⟨h1, h2, h3, h4⟩ := h
  cases a with
  | rotate dx dy =>
    refine ⟨h1, h2, ?_, ?_⟩
    · exact le_max_left _ _
    · apply max_le
      · norm_num [mathPI]
      · exact min_le_left _ _
  | zoom d =>
    refine ⟨?_, ?_, h3, h4⟩
    · exact le_max_left _ _
    · apply max_le
      · norm_num
      · exact min_le_left _ _

theorem camInvariant_run (acts : List CamAction) :
    ∀ c : CameraControls, camInvariant c → camInvariant (acts.foldl applyCamAction c) := by
  induction acts with
  | nil => intro c h; exact h
  | cons a rest ih =>
    intro c h
    exact ih (applyCamAction c a) (camInvariant_step c a h)

/-- C2: for every camera state reachable from the initial controls by any
finite sequence of rotateCameraBy and zoomCameraBy calls with arbitrary
deltas, the distance stays within the configured range 2 to 50 and
rotationX stays within -PI/2 + 0.1 to PI/2 - 0.1 (the code form of the
polar clamp); no input sequence can violate the clamps. -/
theorem c2_clamp_invariant (acts : List CamAction) :
    2 ≤ (runCamera acts).distance ∧ (runCamera acts).distance ≤ 50 ∧
    -(mathPI / 2) + 0.1 ≤ (runCamera acts).rotationX ∧
    (runCamera acts).rotationX ≤ mathPI / 2 - 0.1 := by
  have hinit : camInvariant initialCameraControls := by
    refine ⟨by norm_num [initialCameraControls], by norm_num [initialCameraControls], ?_, ?_⟩
    · norm_num [initialCameraControls, mathPI]
    · norm_num [initialCameraControls, mathPI]
  exact camInvariant_run acts initialCameraControls hinit

/-- C7: the claim is false on the code.  rotateCameraBy adds
deltaX * 0.01 to the azimuth instead of subtracting it: from the initial
controls, a rotate by deltaX = 1 yields rotationY = 0.51, not the 0.49
required by the claimed update rule azimuth := azimuth - dx * sensitivity. -/
theorem c7_counterexample :
    (rotateCameraBy initialCameraControls 1 0).rotationY ≠
      initialCameraControls.rotationY - 1 * 0.01 := by
  norm_num [rotateCameraBy, initialCameraControls]

/-- C7 (amended): rotateCameraBy updates the azimuth by ADDING
deltaX * 0.01 (rotationY := rotationY + deltaX * 0.01) and sets the
elevation to the clamp of rotationX + deltaY * 0.01 into the interval
from -PI/2 + 0.1 to PI/2 - 0.1, leaving the distance unchanged. -/
theorem c7_amended (c : CameraControls) (dx dy : ℚ) :
    (rotateCameraBy c dx dy).rotationY = c.rotationY + dx * 0.01 ∧
    (rotateCameraBy c dx dy).rotationX =
      max (-(mathPI / 2) + 0.1) (min (mathPI / 2 - 0.1) (c.rotationX + dy * 0.01)) ∧
    (rotateCameraBy c dx dy).distance = c.distance :=
  ⟨rfl, rfl, rfl⟩

/-- The JavaScript String.prototype.trim builtin, embedded structurally:
drop whitespace characters from both ends (the source only ever trims
labels made of ordinary characters and spaces). -/
def jsTrim (s : String) : String :=
  ⟨((s.data.dropWhile Char.isWhitespace).reverse.dropWhile Char.isWhitespace).reverse⟩

/-- The JavaScript String.prototype.toLowerCase builtin, embedded as a
character-wise lowering (the allow-listed suffixes are plain ASCII). -/
def jsToLower (s : String) : String := ⟨s.data.map Char.toLower⟩

/-- The JavaScript String.prototype.endsWith builtin. -/
def jsEndsWith (s suffix : String) : Bool := suffix.data.isSuffixOf s.data

/-- The mouseState slice of the editor state. -/
structure MouseState where
  isDown : Bool
  lastX : ℚ
  lastY : ℚ
  button : Option Nat
deriving DecidableEq, Repr

/-- A hotspot record as built in handleHotspotPlacement: id is the
Date.now() reading, position the world-space hit point, screenPosition
the canvas-relative click coordinates.  The createdAt ISO string of the
source is embedded as the same millisecond clock reading that produced
it. -/
structure Hotspot where
  id : Nat
  label : String
  position : Vec3
  screenPosition : ℚ × ℚ
  createdAt : Nat
deriving DecidableEq, Repr

/-- The reducer state of SwiftXR3DEditor.js.  The currentModel payload is
an abstract scene-object handle, embedded as a natural-number token. -/
structure EditorState where
  isModelLoaded : Bool
  isLoading : Bool
  error : String
  currentModel : Option Nat
  hotspots : List Hotspot
  isAddingHotspot : Bool
  selectedHotspotId : Option Nat
  newHotspotLabel : String
  hotspotsVisible : Bool
  showStats : Bool
  mouseState : MouseState
deriving DecidableEq, Repr

/-- The initialState object of SwiftXR3DEditor.js. -/
def initialState : EditorState :=
  { isModelLoaded := false
    isLoading := false
    error := ""
    currentModel := none
    hotspots := []
    isAddingHotspot := false
    selectedHotspotId := none
    newHotspotLabel := ""
    hotspotsVisible := true
    showStats := false
    mouseState := { isDown := false, lastX := 0, lastY := 0, button := none } }

/-- The action type dispatched to editorReducer. -/
inductive Action where
  | setLoading
  | setError (msg : String)
  | setModelLoaded (model : Nat)
  | clearModel
  | addHotspot (h : Hotspot)
  | deleteHotspot (id : Nat)
  | selectHotspot (id : Nat)
  | setHotspotLabel (label : String)
  | toggleAddingHotspot
  | setHotspotsVisible (visible : Bool)
  | clearAllHotspots
  | toggleStats
  | setMouseState (ms : MouseState)
deriving DecidableEq, Repr

/-- editorReducer from SwiftXR3DEditor.js, case for case. -/
def editorReducer (state : EditorState) : Action → EditorState
  | .setLoading => { state with isLoading := true, error := "" }
  | .setError msg => { state with error := msg, isLoading := false }
  | .setModelLoaded mdl =>
      { state with
        isModelLoaded := true
        isLoading := false
        currentModel := some mdl
        hotspots := []
        selectedHotspotId := none
        error := "" }
  | .clearModel =>
      { state with
        isModelLoaded := false
        currentModel := none
        hotspots := []
        selectedHotspotId := none }
  | .addHotspot h =>
      { state with
        hotspots := state.hotspots ++ [h]
        selectedHotspotId := some h.id
        newHotspotLabel := ""
        isAddingHotspot := false }
  | .deleteHotspot i =>
      { state with
        hotspots := state.hotspots.filter (fun h => h.id != i)
        selectedHotspotId :=
          if state.selectedHotspotId = some i then none else state.selectedHotspotId }
  | .selectHotspot i => { state with selectedHotspotId := some i }
  | .setHotspotLabel l => { state with newHotspotLabel := l }
  | .toggleAddingHotspot =>
      { state with
        isAddingHotspot := !state.isAddingHotspot
        newHotspotLabel := if !state.isAddingHotspot then state.newHotspotLabel else "" }
  | .setHotspotsVisible v => { state with hotspotsVisible := v }
  | .clearAllHotspots => { state with hotspots := [], selectedHotspotId := none }
  | .toggleStats => { state with showStats := !state.showStats }
  | .setMouseState ms => { state with mouseState := ms }

/-- One raycast intersection: distance along the ray and world hit point. -/
structure Hit where
  distance : ℚ
  point : Vec3
deriving DecidableEq, Repr

/-- Modelled from the spec: THREE.Raycaster.intersectObject, the Screen
Raycaster collaborator, is not part of src; per the spec it returns the
intersections sorted by increasing distance, so that index 0 of the
returned array, as read by handleHotspotPlacement, is the hit with the
smallest distance along the ray (nearest to camera).  The candidate
intersections are taken as input and the nearest one is selected. -/
def nearestHit : List Hit → Option Hit
  | [] => none
  | h :: hs =>
      some (hs.foldl (fun best cand => if cand.distance < best.distance then cand else best) h)

/-- handleHotspotPlacement from SwiftXR3DEditor.js.  The current model is
read from the state (the hook fallback of getCurrentModel tracks the same
loaded scene object); the raycast outcome enters as the intersection list
and the Date.now() clock reading enters as now.  A truthy trimmed label is
a nonempty trimmed label. -/
def handleHotspotPlacement (state : EditorState) (screenX screenY : ℚ)
    (hits : List Hit) (now : Nat) : EditorState :=
  match state.currentModel with
  | none => state
  | some _ =>
      if jsTrim state.newHotspotLabel = "" then state
      else
        match nearestHit hits with
        | some hit =>
            editorReducer state (.addHotspot
              { id := now
                label := jsTrim state.newHotspotLabel
                position := hit.point
                screenPosition := (screenX, screenY)
                createdAt := now })
        | none => state

/-- handleMouseDown from SwiftXR3DEditor.js: with a model loaded, an armed
hotspot mode and a truthy trimmed label the click routes to hotspot
placement; otherwise, with a model loaded and hotspot mode off, it starts
a camera drag by recording the mouse state; otherwise it does nothing. -/
def handleMouseDown (state : EditorState) (x y : ℚ) (button : Nat)
    (hits : List Hit) (now : Nat) : EditorState :=
  if state.isAddingHotspot && state.isModelLoaded && (jsTrim state.newHotspotLabel != "") then
    handleHotspotPlacement state x y hits now
  else if state.isModelLoaded && !state.isAddingHotspot then
    editorReducer state (.setMouseState { isDown := true, lastX := x, lastY := y, button := some button })
  else state

theorem foldlBest_spec (hs : List Hit) :
    ∀ b : Hit,
      (hs.foldl (fun best cand => if cand.distance < best.distance then cand else best) b = b ∨
        hs.foldl (fun best cand => if cand.distance < best.distance then cand else best) b ∈ hs) ∧
      (hs.foldl (fun best cand => if cand.distance < best.distance then cand else best) b).distance ≤ b.distance ∧
      ∀ h ∈ hs,
        (hs.foldl (fun best cand => if cand.distance < best.distance then cand else best) b).distance ≤ h.distance := by
  induction hs with
  | nil =>
    intro b
    exact ⟨Or.inl rfl, le_refl _, fun h hmem => absurd hmem (List.not_mem_nil h)⟩
  | cons c t ih =>
    intro b
    simp only [List.foldl_cons]
    obtain ⟨hmem, hle, hall⟩ := ih (if c.distance < b.distance then c else b)
    have hble : (if c.distance < b.distance then c else b).distance ≤ b.distance := by
      by_cases hc : c.distance < b.distance
      · rw [if_pos hc]; exact le_of_lt hc
      · rw [if_neg hc]
    have hcle : (if c.distance < b.distance then c else b).distance ≤ c.distance := by
      by_cases hc : c.distance < b.distance
      · rw [if_pos hc]
      · rw [if_neg hc]; exact le_of_not_lt hc
    refine ⟨?_, le_trans hle hble, ?_⟩
    · rcases hmem with hmem | hmem
      · by_cases hc : c.distance < b.distance
        · right
          rw [hmem, if_pos hc]
          exact List.mem_cons_self c t
        · left
          rw [hmem, if_neg hc]
      · right
        exact List.mem_cons_of_mem c hmem
    · intro h hh
      rcases List.mem_cons.mp hh with hh | hh
      · rw [hh]
        exact le_trans hle hcle
      · exact hall h hh

theorem nearestHit_spec (hits : List Hit) (hit : Hit) (h : nearestHit hits = some hit) :
    hit ∈ hits ∧ ∀ h2 ∈ hits, hit.distance ≤ h2.distance := by
  cases hits with
  | nil => exact absurd h (by simp [nearestHit])
  | cons c t =>
    simp only [nearestHit, Option.some.injEq] at h
    obtain ⟨hmem, hle, hall⟩ := foldlBest_spec t c
    subst h
    constructor
    · rcases hmem with hmem | hmem
      · rw [hmem]; exact List.mem_cons_self c t
      · exact List.mem_cons_of_mem c hmem
    · intro h2 hh2
      rcases List.mem_cons.mp hh2 with hh2 | hh2
      · rw [hh2]; exact hle
      · exact hall h2 hh2

theorem placement_success (s : EditorState) (mdl : Nat) (x y : ℚ) (button : Nat)
    (hits : List Hit) (now : Nat) (hit : Hit)
    (h1 : s.isAddingHotspot = true) (h2 : s.isModelLoaded = true)
    (h3 : jsTrim s.newHotspotLabel ≠ "") (h4 : s.currentModel = some mdl)
    (hnh : nearestHit hits = some hit) :
    handleMouseDown s x y button hits now =
      { s with
        hotspots := s.hotspots ++
          [{ id := now
             label := jsTrim s.newHotspotLabel
             position := hit.point
             screenPosition := (x, y)
             createdAt := now }]
        selectedHotspotId := some now
        newHotspotLabel := ""
        isAddingHotspot := false } := by
  have hb : (jsTrim s.newHotspotLabel != "") = true := by
    simpa [bne_iff_ne] using h3
  simp only [handleMouseDown, h1, h2, hb, Bool.and_self, Bool.and_true, if_pos,
    handleHotspotPlacement, h4, if_neg h3, hnh, editorReducer]

theorem placement_miss (s : EditorState) (mdl : Nat) (x y : ℚ) (button : Nat)
    (now : Nat)
    (h1 : s.isAddingHotspot = true) (h2 : s.isModelLoaded = true)
    (h3 : jsTrim s.newHotspotLabel ≠ "") (h4 : s.currentModel = some mdl) :
    handleMouseDown s x y button [] now = s := by
  have hb : (jsTrim s.newHotspotLabel != "") = true := by
    simpa [bne_iff_ne] using h3
  simp only [handleMouseDown, h1, h2, hb, Bool.and_self, Bool.and_true, if_pos,
    handleHotspotPlacement, h4, if_neg h3, nearestHit]

/-- C4: in hotspot-armed mode with a loaded model and a nonempty trimmed
pending label, a click whose raycast hits the model appends exactly one
new hotspot whose position is the nearest intersection point (a member of
the hit list of minimal distance), records the click coordinates, clears
the pending label and exits hotspot mode (with the new hotspot selected);
a click whose raycast returns no intersection leaves the state unchanged. -/
theorem c4_hotspot_placement (s : EditorState) (mdl : Nat) (x y : ℚ) (button : Nat)
    (hits : List Hit) (now : Nat)
    (h1 : s.isAddingHotspot = true) (h2 : s.isModelLoaded = true)
    (h3 : jsTrim s.newHotspotLabel ≠ "") (h4 : s.currentModel = some mdl) :
    (∀ hit : Hit, nearestHit hits = some hit →
      handleMouseDown s x y button hits now =
        { s with
          hotspots := s.hotspots ++
            [{ id := now
               label := jsTrim s.newHotspotLabel
               position := hit.point
               screenPosition := (x, y)
               createdAt := now }]
          selectedHotspotId := some now
          newHotspotLabel := ""
          isAddingHotspot := false } ∧
      hit ∈ hits ∧ ∀ other ∈ hits, hit.distance ≤ other.distance) ∧
    (hits = [] → handleMouseDown s x y button hits now = s) := by
  constructor
  · intro hit hnh
    obtain ⟨hm, hmin⟩ := nearestHit_spec hits hit hnh
    exact ⟨placement_success s mdl x y button hits now hit h1 h2 h3 h4 hnh, hm, hmin⟩
  · intro hempty
    subst hempty
    exact placement_miss s mdl x y button now h1 h2 h3 h4

/-- A state with a loaded model, armed hotspot mode and pending label A. -/
def demoStep3 : EditorState :=
  editorReducer (editorReducer (editorReducer initialState (.setModelLoaded 1))
    .toggleAddingHotspot) (.setHotspotLabel "A")

/-- Two raycast intersections; the second is the nearer one. -/
def exHits : List Hit := [⟨5, ⟨1, 1, 1⟩⟩, ⟨3, ⟨2, 2, 2⟩⟩]

/-- Witness for c4_hotspot_placement: a concrete armed click on two hits
places one hotspot at the nearer point (2,2,2). -/
theorem c4_hotspot_placement_witness :
    handleMouseDown demoStep3 10 20 0 exHits 100 =
      { demoStep3 with
        hotspots := demoStep3.hotspots ++
          [{ id := 100
             label := jsTrim demoStep3.newHotspotLabel
             position := ⟨2, 2, 2⟩
             screenPosition := (10, 20)
             createdAt := 100 }]
        selectedHotspotId := some 100
        newHotspotLabel := ""
        isAddingHotspot := false } :=
  ((c4_hotspot_placement demoStep3 1 10 20 0 exHits 100 (by decide) (by decide)
    (by decide) (by decide)).1 ⟨3, ⟨2, 2, 2⟩⟩ (by decide)).1

/-- C6: in hotspot-armed mode with an empty (or whitespace-only) trimmed
pending label, a pointer click leaves the editor state entirely unchanged
for every possible raycast outcome (in the source the raycaster is not
even consulted: the placement branch is guarded away, and the camera-drag
branch requires hotspot mode to be off, so no mouse state or camera call
happens either). -/
theorem c6_empty_label_inert (s : EditorState) (x y : ℚ) (button : Nat)
    (hits : List Hit) (now : Nat)
    (h1 : s.isAddingHotspot = true) (h2 : jsTrim s.newHotspotLabel = "") :
    handleMouseDown s x y button hits now = s := by
  simp [handleMouseDown, h1, h2]

/-- A state with a loaded model, armed hotspot mode, whitespace label. -/
def exBlankArmed : EditorState :=
  { initialState with
    isModelLoaded := true
    currentModel := some 1
    isAddingHotspot := true
    newHotspotLabel := "   " }

/-- Witness for c6_empty_label_inert at a concrete blank-label state. -/
theorem c6_empty_label_inert_witness :
    handleMouseDown exBlankArmed 10 20 0 exHits 100 = exBlankArmed :=
  c6_empty_label_inert exBlankArmed 10 20 0 exHits 100 (by decide) (by decide)

/-- A prior state with a loaded model, two hotspots, an armed hotspot
mode and a pending label. -/
def preloadState : EditorState :=
  { initialState with
    isModelLoaded := true
    currentModel := some 1
    hotspots := [⟨100, "first", ⟨0, 0, 0⟩, (5, 5), 100⟩, ⟨200, "second", ⟨1, 0, 0⟩, (7, 7), 200⟩]
    selectedHotspotId := some 100
    isAddingHotspot := true
    newHotspotLabel := "door" }

/-- C3: the claim is false on the code.  From a prior state in
hotspot-armed mode with pending label door, the SET_MODEL_LOADED
transition does empty the hotspot collection, but it neither resets the
interaction mode to idle (isAddingHotspot stays true) nor clears the
pending label (newHotspotLabel stays door). -/
theorem c3_counterexample :
    ¬ ((editorReducer preloadState (.setModelLoaded 2)).isAddingHotspot = false ∧
       (editorReducer preloadState (.setModelLoaded 2)).newHotspotLabel = "" ∧
       (editorReducer preloadState (.setModelLoaded 2)).hotspots = []) := by
  decide

/-- C3 (amended): the SET_MODEL_LOADED transition unconditionally empties
the hotspot collection and clears the selection (and the error), but it
leaves the interaction mode flag isAddingHotspot and the pending label
newHotspotLabel unchanged from the prior state. -/
theorem c3_model_loaded_amended (s : EditorState) (mdl : Nat) :
    (editorReducer s (.setModelLoaded mdl)).hotspots = [] ∧
    (editorReducer s (.setModelLoaded mdl)).selectedHotspotId = none ∧
    (editorReducer s (.setModelLoaded mdl)).isModelLoaded = true ∧
    (editorReducer s (.setModelLoaded mdl)).isLoading = false ∧
    (editorReducer s (.setModelLoaded mdl)).error = "" ∧
    (editorReducer s (.setModelLoaded mdl)).currentModel = some mdl ∧
    (editorReducer s (.setModelLoaded mdl)).isAddingHotspot = s.isAddingHotspot ∧
    (editorReducer s (.setModelLoaded mdl)).newHotspotLabel = s.newHotspotLabel :=
  ⟨rfl, rfl, rfl, rfl, rfl, rfl, rfl, rfl⟩

/-- C5: DELETE_HOTSPOT with id i sets the selection to null exactly when
the current selection is i (otherwise the selection is untouched), keeps
every hotspot whose id differs from i, and every remaining hotspot comes
from the prior list and has an id different from i. -/
theorem c5_delete_hotspot (s : EditorState) (i : Nat) :
    (editorReducer s (.deleteHotspot i)).selectedHotspotId =
      (if s.selectedHotspotId = some i then none else s.selectedHotspotId) ∧
    (∀ h ∈ (editorReducer s (.deleteHotspot i)).hotspots, h ∈ s.hotspots ∧ h.id ≠ i) ∧
    (∀ h ∈ s.hotspots, h.id ≠ i → h ∈ (editorReducer s (.deleteHotspot i)).hotspots) := by
  refine ⟨rfl, ?_, ?_⟩
  · intro h hmem
    rw [editorReducer] at hmem
    simp only [List.mem_filter, bne_iff_ne] at hmem
    exact hmem
  · intro h hmem hne
    rw [editorReducer]
    simp only [List.mem_filter, bne_iff_ne]
    exact ⟨hmem, hne⟩

/-- Witness for c5_delete_hotspot: deleting the selected hotspot 100 from
preloadState clears the selection and keeps the non-matching hotspot 200. -/
theorem c5_delete_hotspot_witness :
    (editorReducer preloadState (.deleteHotspot 100)).selectedHotspotId = none ∧
    (⟨200, "second", ⟨1, 0, 0⟩, (7, 7), 200⟩ : Hotspot) ∈
      (editorReducer preloadState (.deleteHotspot 100)).hotspots := by
  have h := c5_delete_hotspot preloadState 100
  constructor
  · rw [h.1]
    decide
  · exact h.2.2 ⟨200, "second", ⟨1, 0, 0⟩, (7, 7), 200⟩ (by decide) (by decide)

/-- The state after placing hotspot A at clock reading 100: the Date.now()
millisecond clock enters the embedding as an input, and two calls within
the same millisecond read the same value. -/
def demoStep4 : EditorState := handleMouseDown demoStep3 10 20 0 exHits 100

/-- Re-arm hotspot mode after the first placement. -/
def demoStep5 : EditorState := editorReducer demoStep4 .toggleAddingHotspot

/-- Enter the label B for a second hotspot. -/
def demoStep6 : EditorState := editorReducer demoStep5 (.setHotspotLabel "B")

/-- The state after placing hotspot B in the same millisecond (clock
reading 100 again). -/
def demoStep7 : EditorState := handleMouseDown demoStep6 30 40 0 exHits 100

/-- C8: the claim is false on the code.  Two hotspots created in the same
session in immediate succession, with the millisecond clock reading 100
both times, are distinct records (their labels differ) yet share the id
100, because the id is the Date.now() reading at creation. -/
theorem c8_counterexample :
    demoStep7.hotspots =
      [⟨100, "A", ⟨2, 2, 2⟩, (10, 20), 100⟩, ⟨100, "B", ⟨2, 2, 2⟩, (30, 40), 100⟩] ∧
    (⟨100, "A", ⟨2, 2, 2⟩, (10, 20), 100⟩ : Hotspot) ≠ ⟨100, "B", ⟨2, 2, 2⟩, (30, 40), 100⟩ ∧
    Hotspot.id ⟨100, "A", ⟨2, 2, 2⟩, (10, 20), 100⟩ =
      Hotspot.id ⟨100, "B", ⟨2, 2, 2⟩, (30, 40), 100⟩ := by
  decide

/-- C8 (amended): the id of a hotspot is the Date.now() clock reading at
its creation, so two hotspots whose successful placements read distinct
clock values have distinct ids; only creations within the same
millisecond (equal readings) collide. -/
theorem c8_distinct_clock_ids (s1 s2 : EditorState) (m1 m2 : Nat)
    (x1 y1 x2 y2 : ℚ) (b1 b2 : Nat) (hits1 hits2 : List Hit)
    (hit1 hit2 : Hit) (t1 t2 : Nat) (hne : t1 ≠ t2)
    (h11 : s1.isAddingHotspot = true) (h12 : s1.isModelLoaded = true)
    (h13 : jsTrim s1.newHotspotLabel ≠ "") (h14 : s1.currentModel = some m1)
    (h15 : nearestHit hits1 = some hit1)
    (h21 : s2.isAddingHotspot = true) (h22 : s2.isModelLoaded = true)
    (h23 : jsTrim s2.newHotspotLabel ≠ "") (h24 : s2.currentModel = some m2)
    (h25 : nearestHit hits2 = some hit2) :
    ∀ hA hB : Hotspot,
      (handleMouseDown s1 x1 y1 b1 hits1 t1).hotspots = s1.hotspots ++ [hA] →
      (handleMouseDown s2 x2 y2 b2 hits2 t2).hotspots = s2.hotspots ++ [hB] →
      hA.id ≠ hB.id := by
  intro hA hB eA eB
  have e1 : (handleMouseDown s1 x1 y1 b1 hits1 t1).hotspots =
      s1.hotspots ++ [⟨t1, jsTrim s1.newHotspotLabel, hit1.point, (x1, y1), t1⟩] := by
    rw [placement_success s1 m1 x1 y1 b1 hits1 t1 hit1 h11 h12 h13 h14 h15]
  have e2 : (handleMouseDown s2 x2 y2 b2 hits2 t2).hotspots =
      s2.hotspots ++ [⟨t2, jsTrim s2.newHotspotLabel, hit2.point, (x2, y2), t2⟩] := by
    rw [placement_success s2 m2 x2 y2 b2 hits2 t2 hit2 h21 h22 h23 h24 h25]
  have hA_eq : hA = ⟨t1, jsTrim s1.newHotspotLabel, hit1.point, (x1, y1), t1⟩ := by
    have h := List.append_cancel_left (e1.symm.trans eA)
    simpa using h.symm
  have hB_eq : hB = ⟨t2, jsTrim s2.newHotspotLabel, hit2.point, (x2, y2), t2⟩ := by
    have h := List.append_cancel_left (e2.symm.trans eB)
    simpa using h.symm
  rw [hA_eq, hB_eq]
  exact hne

/-- Witness for c8_distinct_clock_ids: placements at clock readings 100
and 200 give hotspots with ids 100 and 200. -/
theorem c8_distinct_clock_ids_witness :
    (⟨100, "A", ⟨2, 2, 2⟩, (10, 20), 100⟩ : Hotspot).id ≠
      (⟨200, "B", ⟨2, 2, 2⟩, (30, 40), 200⟩ : Hotspot).id :=
  c8_distinct_clock_ids demoStep3 demoStep6 1 1 10 20 30 40 0 0 exHits exHits
    ⟨3, ⟨2, 2, 2⟩⟩ ⟨3, ⟨2, 2, 2⟩⟩ 100 200 (by decide)
    (by decide) (by decide) (by decide) (by decide) (by decide)
    (by decide) (by decide) (by decide) (by decide) (by decide)
    ⟨100, "A", ⟨2, 2, 2⟩, (10, 20), 100⟩ ⟨200, "B", ⟨2, 2, 2⟩, (30, 40), 200⟩
    (by decide) (by decide)

/-- The kinds of Error thrown by validateFile in modelLoader.js. -/
inductive ValidationError where
  | noFile
  | unsupportedFormat
  | sizeExceeded
deriving DecidableEq, Repr

/-- A file at the import boundary: declared name and declared size. -/
structure FileInfo where
  name : String
  size : Nat
deriving DecidableEq, Repr

/-- The allow-listed suffixes of the ModelLoader constructor. -/
def supportedFormats : List String := [".glb", ".gltf"]

/-- The 50MB size cap of validateFile, in bytes. -/
def maxFileSize : Nat := 50 * 1024 * 1024

/-- validateFile from modelLoader.js, case for case: a missing file
throws; then the lower-cased file name must end with an allow-listed
suffix, else an unsupported-format Error is thrown; then the declared
size must not exceed 50MB, else a too-large Error is thrown; otherwise
the function returns true.  Thrown Error values are embedded as the error
branch of Except, distinguished by kind. -/
def validateFile : Option FileInfo → Except ValidationError Bool
  | none => .error .noFile
  | some file =>
      let fileName := jsToLower file.name
      if supportedFormats.any (fun fmt => jsEndsWith fileName fmt) then
        if file.size > maxFileSize then .error .sizeExceeded
        else .ok true
      else .error .unsupportedFormat

/-- C9: the claim is false on the code.  A file whose declared size
exceeds the 50MB threshold but whose name lacks an allow-listed suffix is
rejected with the unsupported-format error, not the size-exceeded error:
the format check runs first. -/
theorem c9_counterexample :
    validateFile (some ⟨"model.txt", 60000000⟩) = .error .unsupportedFormat ∧
    60000000 > maxFileSize ∧
    ValidationError.unsupportedFormat ≠ ValidationError.sizeExceeded :=
  ⟨rfl, by decide, by decide⟩

/-- C9 (amended): validation fails with the size-exceeded error for every
file with an allow-listed suffix whose declared size exceeds the 50MB
threshold, fails with the unsupported-format error for every file whose
lower-cased name does not end in an allow-listed suffix (regardless of
size), and returns true exactly when the suffix is allow-listed and the
size is within the threshold; in all cases before any decode is
attempted (loadGLB calls validateFile before reading the bytes). -/
theorem c9_validate_amended (f : FileInfo) :
    (supportedFormats.any (fun fmt => jsEndsWith (jsToLower f.name) fmt) = true →
      f.size > maxFileSize → validateFile (some f) = .error .sizeExceeded) ∧
    (supportedFormats.any (fun fmt => jsEndsWith (jsToLower f.name) fmt) = false →
      validateFile (some f) = .error .unsupportedFormat) ∧
    (validateFile (some f) = .ok true ↔
      supportedFormats.any (fun fmt => jsEndsWith (jsToLower f.name) fmt) = true ∧
      f.size ≤ maxFileSize) := by
  refine ⟨?_, ?_, ?_⟩
  · intro hfmt hsize
    simp [validateFile, hfmt, hsize]
  · intro hfmt
    simp [validateFile, hfmt]
  · constructor
    · intro h
      by_cases hfmt : supportedFormats.any (fun fmt => jsEndsWith (jsToLower f.name) fmt) = true
      · by_cases hsize : f.size > maxFileSize
        · simp [validateFile, hfmt, hsize] at h
        · exact ⟨hfmt, le_of_not_lt hsize⟩
      · exfalso
        simp only [validateFile] at h
        rw [if_neg hfmt] at h
        exact Except.noConfusion h
    · rintro ⟨hfmt, hsize⟩
      have hns : ¬ (f.size > maxFileSize) := not_lt.mpr hsize
      simp [validateFile, hfmt, hns]

/-- Witness for c9_validate_amended: an oversized .glb file gives the
size error, a .txt file gives the format error, a .gltf file at exactly
the cap passes. -/
theorem c9_validate_amended_witness :
    validateFile (some ⟨"big.glb", 52428801⟩) = .error .sizeExceeded ∧
    validateFile (some ⟨"model.txt", 10⟩) = .error .unsupportedFormat ∧
    validateFile (some ⟨"ok.gltf", 52428800⟩) = .ok true :=
  ⟨(c9_validate_amended ⟨"big.glb", 52428801⟩).1 (by decide) (by decide),
   (c9_validate_amended ⟨"model.txt", 10⟩).2.1 (by decide),
   (c9_validate_amended ⟨"ok.gltf", 52428800⟩).2.2.mpr ⟨by decide, by decide⟩⟩

/-- An action is admissible in a state when a SELECT_HOTSPOT payload is
the id of a hotspot currently in the list (the source only ever
dispatches SELECT_HOTSPOT with hotspot.id taken from the rendered list);
every other action is always admissible. -/
def validAction (s : EditorState) : Action → Bool
  | .selectHotspot i => s.hotspots.any (fun h => h.id == i)
  | _ => true

/-- Admissibility of an action sequence along the run of the reducer. -/
def validSeq : EditorState → List Action → Bool
  | _, [] => true
  | s, a :: rest => validAction s a && validSeq (editorReducer s a) rest

/-- The state after dispatching a sequence of actions to the reducer. -/
def runEditor (s : EditorState) (acts : List Action) : EditorState :=
  acts.foldl editorReducer s

/-- The selection invariant: the selection is null or the id of a hotspot
present in the list. -/
def selectionConsistent (s : EditorState) : Prop :=
  s.selectedHotspotId = none ∨ ∃ h ∈ s.hotspots, some h.id = s.selectedHotspotId

theorem selectionConsistent_step (s : EditorState) (a : Action)
    (hv : validAction s a = true) (h : selectionConsistent s) :
    selectionConsistent (editorReducer s a) := by
  cases a with
  | setLoading => exact h
  | setError msg => exact h
  | setModelLoaded mdl => exact Or.inl rfl
  | clearModel => exact Or.inl rfl
  | addHotspot hh =>
    right
    exact ⟨hh, List.mem_append_right _ (List.mem_singleton.mpr rfl), rfl⟩
  | deleteHotspot i =>
    rcases h with hnone | ⟨hh, hmem, hid⟩
    · left
      simp [editorReducer, hnone]
    · by_cases hc : s.selectedHotspotId = some i
      · left
        simp [editorReducer, hc]
      · right
        have hne : hh.id ≠ i := by
          intro heq

          exact hc (hid ▸ (heq ▸ rfl) : s.selectedHotspotId = some i)
        refine ⟨hh, ?_, ?_⟩
        · simp only [editorReducer, List.mem_filter, bne_iff_ne]
          exact ⟨hmem, hne⟩
        · simp only [editorReducer, if_neg hc]
          exact hid
  | selectHotspot i =>
    simp only [validAction, List.any_eq_true, beq_iff_eq] at hv
    obtain ⟨hh, hmem, hid⟩ := hv
    right
    refine ⟨hh, hmem, ?_⟩
    simp only [editorReducer]
    rw [hid]
  | setHotspotLabel l => exact h
  | toggleAddingHotspot => exact h
  | setHotspotsVisible v => exact h
  | clearAllHotspots => exact Or.inl rfl
  | toggleStats => exact h
  | setMouseState ms => exact h

theorem selectionConsistent_run :
    ∀ (acts : List Action) (s : EditorState), selectionConsistent s →
      validSeq s acts = true → selectionConsistent (runEditor s acts) := by
  intro acts
  induction acts with
  | nil => intro s h _; exact h
  | cons a rest ih =>
    intro s h hv
    rw [validSeq, Bool.and_eq_true] at hv
    exact ih (editorReducer s a) (selectionConsistent_step s a hv.1 h) hv.2

/-- C10: in every editor state reachable from the initial state by any
sequence of reducer actions whose SELECT_HOTSPOT payloads name hotspots
currently in the list, the selection is null or the id of a hotspot in
the list; and ADD_HOTSPOT always sets the selection to the id of the
hotspot just added. -/
theorem c10_selection_invariant (acts : List Action)
    (hv : validSeq initialState acts = true) :
    selectionConsistent (runEditor initialState acts) ∧
    ∀ (s : EditorState) (h : Hotspot),
      (editorReducer s (.addHotspot h)).selectedHotspotId = some h.id :=
  ⟨selectionConsistent_run acts initialState (Or.inl rfl) hv,
   fun _ _ => rfl⟩

/-- A concrete admissible action sequence: load a model, add a hotspot,
select it, then delete it. -/
def exActs : List Action :=
  [.setModelLoaded 1, .addHotspot ⟨100, "A", ⟨0, 0, 0⟩, (1, 2), 100⟩,
   .selectHotspot 100, .deleteHotspot 100]

/-- Witness for c10_selection_invariant at the concrete sequence exActs. -/
theorem c10_selection_invariant_witness :
    validSeq initialState exActs = true ∧
    selectionConsistent (runEditor initialState exActs) :=
  ⟨by decide, (c10_selection_invariant exActs (by decide)).1⟩

end SwiftXR
